import Mathlib

/-!
Shallow embedding of the Flooding Consensus algorithm from
src/libaugrim/src/algorithm/flooding/{algorithm.rs, context.rs}.

Rust `Vec` indexing panics when the index is out of bounds; we model every
fallible transition as `Except (TransitionError E) _`, where `.panicked`
stands for a Rust panic (out-of-bounds index or `usize` underflow) and
`.internal e` stands for an `Err(e)` returned through `?` from the injected
selection function.
-/

namespace Augrim

/-- Modelled from the spec: `Round` is declared in the (absent) flooding
module root as the round index type; per spec section 3 it is a 1-based
integer used to index the per-round tables, i.e. Rust `usize`. -/
abbrev Round := Nat

/-- Modelled from the spec (section 4.1 Message vocabulary) and the
pattern matches in algorithm.rs: `Proposal(Round, Vec<V>)` and
`Decided(V)` from the absent `message.rs`. -/
inductive FloodingMessage (V : Type) where
  | Proposal : Round → List V → FloodingMessage V
  | Decided : V → FloodingMessage V
deriving DecidableEq, Repr

/-- Modelled from the spec (section 4.1 Event vocabulary) and the
pattern matches in algorithm.rs `event`: `Crash(P)`, `Deliver(P, Message)`,
`Propose(V)` from the absent `event.rs`. -/
inductive FloodingEvent (P V : Type) where
  | Crash : P → FloodingEvent P V
  | Deliver : P → FloodingMessage V → FloodingEvent P V
  | Propose : V → FloodingEvent P V
deriving DecidableEq, Repr

/-- `FloodingContext` from context.rs: the per-process protocol state. -/
structure FloodingContext (P V : Type) where
  correct : List P
  round : Round
  decision : Option V
  received_from : List (List P)
  proposals : List (List V)
deriving DecidableEq, Repr

/-- Modelled from the spec (section 4.1 Action vocabulary) and the
constructor uses in algorithm.rs: `UpdateContext(Context)`,
`Broadcast(Message)`, `Decide(V)` from the absent `action.rs`. -/
inductive FloodingAction (P V : Type) where
  | UpdateContext : FloodingContext P V → FloodingAction P V
  | Broadcast : FloodingMessage V → FloodingAction P V
  | Decide : V → FloodingAction P V
deriving DecidableEq, Repr

/-- Outcome of a fallible transition: `.panicked` models a Rust panic
(out-of-bounds `Vec` index / `usize` underflow); `.internal e` models
`Err(e)` propagated from the selection function. -/
inductive TransitionError (E : Type) where
  | panicked : TransitionError E
  | internal : E → TransitionError E
deriving DecidableEq, Repr

/-- `FloodingContext::new` from context.rs: `correct` is the membership,
`round` starts at 1, `received_from[0]` is pre-seeded with the membership,
and both per-round tables have exactly `processes.len()` entries. -/
def FloodingContext.new {P V : Type} (processes : List P) : FloodingContext P V :=
  { correct := processes
    round := 1
    decision := none
    received_from :=
      (List.range processes.length).map (fun n => match n with | 0 => processes | _ => [])
    proposals := List.replicate processes.length [] }

/-- Rust `Vec::swap_remove(i)`: replace entry `i` with the last entry and
pop the last entry (callers guarantee the vector is non-empty and
`i` is in bounds). -/
def swapRemove {α : Type} (l : List α) (i : Nat) : List α :=
  match l.getLast? with
  | none => l
  | some a => (l.set i a).dropLast

variable {P V E : Type} [DecidableEq P]

/-- The body of `decide_or_next_round` that runs once the guard
(`correct ⊆ received_from[round]` and `decision.is_none()`) has passed:
compare `received_from[round]` with `received_from[round - 1]` by length
plus one-directional containment, then either decide via the selection
function or advance the round and re-flood `proposals[new_round - 1]`. -/
def decideOrNextRoundInner (select : List V → Except E V) (ctx : FloodingContext P V) :
    Except (TransitionError E) (FloodingContext P V × List (FloodingAction P V)) :=
  match ctx.received_from[ctx.round]? with
  | none => .error .panicked
  | some rf_r =>
    -- `context.round() - 1` underflows (panics) when round = 0
    if ctx.round = 0 then .error .panicked
    else
      match ctx.received_from[ctx.round - 1]? with
      | none => .error .panicked
      | some rf_prev =>
        if rf_r.length == rf_prev.length
            && !(rf_r.any (fun p => !(decide (p ∈ rf_prev)))) then
          match ctx.proposals[ctx.round]? with
          | none => .error .panicked
          | some props =>
            match select props with
            | .error e => .error (.internal e)
            | .ok d =>
              .ok ({ ctx with decision := some d },
                   [.Broadcast (.Decided d), .Decide d])
        else
          -- advance: set round := round + 1, then broadcast
          -- Proposal(round, proposals[round - 1]) where round - 1 is the old round
          match ctx.proposals[ctx.round]? with
          | none => .error .panicked
          | some props =>
            .ok ({ ctx with round := ctx.round + 1 },
                 [.Broadcast (.Proposal (ctx.round + 1) props)])

/-- `decide_or_next_round` from algorithm.rs. The guard
`!correct.iter().any(|p| !received_from[round].contains(p)) && decision.is_none()`
only dereferences `received_from[round]` inside the closure, so with an
empty `correct` no indexing happens in the guard itself. -/
def decideOrNextRound (select : List V → Except E V) (ctx : FloodingContext P V) :
    Except (TransitionError E) (FloodingContext P V × List (FloodingAction P V)) :=
  if ctx.correct.isEmpty then
    if ctx.decision.isNone then decideOrNextRoundInner select ctx
    else .ok (ctx, [])
  else
    match ctx.received_from[ctx.round]? with
    | none => .error .panicked
    | some rf =>
      if ctx.correct.any (fun p => !(decide (p ∈ rf))) then .ok (ctx, [])
      else if ctx.decision.isNone then decideOrNextRoundInner select ctx
      else .ok (ctx, [])

/-- `handle_crash` from algorithm.rs: remove the crashed process from
`correct` by `position` + `swap_remove`, run the convergence check, and
prepend `UpdateContext`; a crash of an absent process returns no actions. -/
def handle_crash (select : List V → Except E V) (ctx : FloodingContext P V) (process : P) :
    Except (TransitionError E) (List (FloodingAction P V)) :=
  match ctx.correct.findIdx? (fun q => decide (q = process)) with
  | none => .ok []
  | some i =>
    let ctx₁ := { ctx with correct := swapRemove ctx.correct i }
    match decideOrNextRound select ctx₁ with
    | .error e => .error e
    | .ok (ctx₂, acts) => .ok (.UpdateContext ctx₂ :: acts)

/-- `handle_propose` from algorithm.rs: push the value onto `proposals[1]`,
then emit `UpdateContext` followed by `Broadcast(Proposal(1, proposals[1]))`
with the just-updated round-1 list. -/
def handle_propose (ctx : FloodingContext P V) (value : V) :
    Except (TransitionError E) (List (FloodingAction P V)) :=
  match ctx.proposals[1]? with
  | none => .error .panicked
  | some ps =>
    let ps₁ := ps ++ [value]
    let ctx₁ := { ctx with proposals := ctx.proposals.set 1 ps₁ }
    .ok [.UpdateContext ctx₁, .Broadcast (.Proposal 1 ps₁)]

/-- `handle_deliver_proposal` from algorithm.rs: push the sender onto
`received_from[round]`, append the values to `proposals[round]`, and run
the convergence check only when the message's round equals the current
round; prepend `UpdateContext`. -/
def handle_deliver_proposal (select : List V → Except E V) (ctx : FloodingContext P V)
    (process : P) (round : Round) (proposals : List V) :
    Except (TransitionError E) (List (FloodingAction P V)) :=
  match ctx.received_from[round]? with
  | none => .error .panicked
  | some rf =>
    let ctx₁ := { ctx with received_from := ctx.received_from.set round (rf ++ [process]) }
    match ctx₁.proposals[round]? with
    | none => .error .panicked
    | some ps =>
      let ctx₂ := { ctx₁ with proposals := ctx₁.proposals.set round (ps ++ proposals) }
      if round = ctx₂.round then
        match decideOrNextRound select ctx₂ with
        | .error e => .error e
        | .ok (ctx₃, acts) => .ok (.UpdateContext ctx₃ :: acts)
      else
        .ok [.UpdateContext ctx₂]

/-- `handle_deliver_decided` from algorithm.rs: when the sender is still in
`correct` and no decision is recorded, `set_decision` is called on the
(owned) context, and `Broadcast(Decided)` plus `Decide` are pushed — but,
exactly as in the source, no `UpdateContext` action is ever inserted, so
the mutated context is dropped when the handler returns. -/
def handle_deliver_decided (ctx : FloodingContext P V) (process : P) (decision : V) :
    Except (TransitionError E) (List (FloodingAction P V)) :=
  if decide (process ∈ ctx.correct) && ctx.decision.isNone then
    .ok [.Broadcast (.Decided decision), .Decide decision]
  else
    .ok []

/-- `FloodingAlgorithm::event` from algorithm.rs (the `Algorithm` impl):
dispatch on the event; the algorithm value itself only carries the injected
selection function, which we pass explicitly. -/
def FloodingAlgorithm.event (select : List V → Except E V)
    (event : FloodingEvent P V) (ctx : FloodingContext P V) :
    Except (TransitionError E) (List (FloodingAction P V)) :=
  match event with
  | .Crash p => handle_crash select ctx p
  | .Deliver p m =>
    match m with
    | .Proposal round values => handle_deliver_proposal select ctx p round values
    | .Decided value => handle_deliver_decided ctx p value
  | .Propose v => handle_propose ctx v

/-- Recogniser for `UpdateContext` actions, used to count them in returned
action lists. -/
def isUpdateContext {P V : Type} : FloodingAction P V → Bool
  | .UpdateContext _ => true
  | _ => false

/-- Recogniser for `Decide` actions. -/
def isDecideAction {P V : Type} : FloodingAction P V → Bool
  | .Decide _ => true
  | _ => false

/-- A concrete selection function for sanity checks: pick the head. -/
def selHead : List Nat → Except Nat Nat :=
  fun l => match l.head? with
    | some v => .ok v
    | none => .error 0

/-! ### Helper lemmas -/

theorem swapRemove_perm {α : Type} (l : List α) (i : Nat) (hi : i < l.length) :
    List.Perm (swapRemove l i) (l.eraseIdx i) := by
  have hne : l ≠ [] := by
    intro h
    subst h
    simp at hi
  have h0 : swapRemove l i = (l.set i (l.getLast hne)).dropLast := by
    unfold swapRemove
    rw [List.getLast?_eq_getLast l hne]
  rw [h0, List.set_eq_take_append_cons_drop, if_pos hi]
  by_cases hcase : i + 1 = l.length
  · rw [List.eraseIdx_eq_take_drop_succ, hcase, List.drop_length, List.append_nil]
    have : l.take i ++ l.getLast hne :: [] = l.take i ++ [l.getLast hne] := rfl
    rw [this, List.dropLast_concat]
  · have hlt : i + 1 < l.length := Nat.lt_of_le_of_ne hi hcase
    have hdne : l.drop (i + 1) ≠ [] := by
      rw [ne_eq, List.drop_eq_nil_iff]
      omega
    rw [List.dropLast_append_cons, List.dropLast_cons_of_ne_nil hdne]
    rw [List.eraseIdx_eq_take_drop_succ]
    have hgl : l.getLast hne = (l.drop (i + 1)).getLast hdne := by
      have h1 : (l.drop (i + 1)).getLast? = l.getLast? := by
        rw [List.getLast?_eq_getElem?, List.getLast?_eq_getElem?, List.getElem?_drop]
        congr 1
        simp only [List.length_drop]
        omega
      rw [List.getLast?_eq_getLast _ hdne, List.getLast?_eq_getLast _ hne] at h1
      exact (Option.some.injEq _ _ ▸ h1).symm
    conv_rhs => rw [← List.dropLast_concat_getLast hdne]
    rw [hgl]
    exact List.Perm.append_left _ ((List.perm_append_singleton _ _).symm)

theorem swapRemove_mem_iff {α : Type} [DecidableEq α] {l : List α} {i : Nat}
    (hi : i < l.length) (hd : l.Nodup) (q : α) :
    q ∈ swapRemove l i ↔ (q ∈ l ∧ q ≠ l[i]) := by
  rw [(swapRemove_perm l i hi).mem_iff]
  rw [← List.Nodup.erase_getElem hd i hi]
  rw [List.Nodup.mem_erase_iff hd]
  tauto

theorem decideOrNextRoundInner_ok {P V E : Type} [DecidableEq P]
    (select : List V → Except E V) (ctx ctx' : FloodingContext P V)
    (acts : List (FloodingAction P V))
    (h : decideOrNextRoundInner select ctx = .ok (ctx', acts)) :
    (∃ d, ctx' = { ctx with decision := some d } ∧
        acts = [.Broadcast (.Decided d), .Decide d])
    ∨ (∃ props, ctx.proposals[ctx.round]? = some props ∧
        ctx' = { ctx with round := ctx.round + 1 } ∧
        acts = [.Broadcast (.Proposal (ctx.round + 1) props)]) := by
  unfold decideOrNextRoundInner at h
  split at h
  · exact absurd h (by simp)
  · split at h
    · exact absurd h (by simp)
    · split at h
      · exact absurd h (by simp)
      · split at h
        · split at h
          · exact absurd h (by simp)
          · split at h
            · exact absurd h (by simp)
            · left
              simp only [Except.ok.injEq, Prod.mk.injEq] at h
              exact ⟨_, h.1.symm, h.2.symm⟩
        · split at h
          · exact absurd h (by simp)
          · right
            simp only [Except.ok.injEq, Prod.mk.injEq] at h
            rename_i hprops
            exact ⟨_, hprops, h.1.symm, h.2.symm⟩

theorem decideOrNextRound_ok {P V E : Type} [DecidableEq P]
    (select : List V → Except E V) (ctx ctx' : FloodingContext P V)
    (acts : List (FloodingAction P V))
    (h : decideOrNextRound select ctx = .ok (ctx', acts)) :
    (ctx' = ctx ∧ acts = [])
    ∨ (ctx.decision = none ∧
       ((∃ d, ctx' = { ctx with decision := some d } ∧
           acts = [.Broadcast (.Decided d), .Decide d])
        ∨ (∃ props, ctx.proposals[ctx.round]? = some props ∧
            ctx' = { ctx with round := ctx.round + 1 } ∧
            acts = [.Broadcast (.Proposal (ctx.round + 1) props)]))) := by
  unfold decideOrNextRound at h
  split at h
  · split at h
    · right
      refine ⟨?_, decideOrNextRoundInner_ok select ctx ctx' acts h⟩
      rename_i hnone
      exact Option.isNone_iff_eq_none.mp hnone
    · left
      simp only [Except.ok.injEq, Prod.mk.injEq] at h
      exact ⟨h.1.symm, h.2.symm⟩
  · split at h
    · exact absurd h (by simp)
    · split at h
      · left
        simp only [Except.ok.injEq, Prod.mk.injEq] at h
        exact ⟨h.1.symm, h.2.symm⟩
      · split at h
        · right
          refine ⟨?_, decideOrNextRoundInner_ok select ctx ctx' acts h⟩
          rename_i hnone
          exact Option.isNone_iff_eq_none.mp hnone
        · left
          simp only [Except.ok.injEq, Prod.mk.injEq] at h
          exact ⟨h.1.symm, h.2.symm⟩

/-- The convergence check never changes `correct`, `received_from` or
`proposals`, and never emits an `UpdateContext` action. -/
theorem decideOrNextRound_frame {P V E : Type} [DecidableEq P]
    (select : List V → Except E V) (ctx ctx' : FloodingContext P V)
    (acts : List (FloodingAction P V))
    (h : decideOrNextRound select ctx = .ok (ctx', acts)) :
    ctx'.correct = ctx.correct ∧ ctx'.received_from = ctx.received_from ∧
    ctx'.proposals = ctx.proposals ∧
    (∀ c, FloodingAction.UpdateContext c ∉ acts) := by
  rcases decideOrNextRound_ok select ctx ctx' acts h with
    ⟨rfl, rfl⟩ | ⟨-, ⟨d, rfl, rfl⟩ | ⟨props, -, rfl, rfl⟩⟩ <;>
    refine ⟨rfl, rfl, rfl, ?_⟩ <;> simp

/-- If a decision is already recorded, the convergence check is a no-op
whenever it returns at all. -/
theorem decideOrNextRound_of_some {P V E : Type} [DecidableEq P]
    (select : List V → Except E V) (ctx ctx' : FloodingContext P V)
    (acts : List (FloodingAction P V)) (v : V)
    (h : decideOrNextRound select ctx = .ok (ctx', acts))
    (hv : ctx.decision = some v) :
    ctx' = ctx ∧ acts = [] := by
  rcases decideOrNextRound_ok select ctx ctx' acts h with h' | ⟨hnone, -⟩
  · exact h'
  · rw [hv] at hnone
    exact absurd hnone (by simp)

/-- When the guard of the convergence check passes — every correct process
is present in `received_from[round]` and no decision is recorded — the
check proceeds to its body. -/
theorem decideOrNextRound_eq_inner {P V E : Type} [DecidableEq P]
    (select : List V → Except E V) (ctx : FloodingContext P V)
    (rf_r : List P)
    (hrf : ctx.received_from[ctx.round]? = some rf_r)
    (hsub : ∀ q ∈ ctx.correct, q ∈ rf_r)
    (hdec : ctx.decision = none) :
    decideOrNextRound select ctx = decideOrNextRoundInner select ctx := by
  unfold decideOrNextRound
  by_cases hemp : ctx.correct.isEmpty
  · simp [hemp, hdec]
  · have hany : (ctx.correct.any fun p => !(decide (p ∈ rf_r))) = false := by
      simp only [List.any_eq_false, Bool.not_eq_true', decide_eq_false_iff_not, not_not]
      exact hsub
    simp [hemp, hrf, hany, hdec]

/-- The body of the convergence check takes the decide branch exactly when
`received_from[round]` and `received_from[round - 1]` have equal lengths
and the former is element-wise contained in the latter. -/
theorem decideOrNextRoundInner_decide_branch {P V E : Type} [DecidableEq P]
    (select : List V → Except E V) (ctx : FloodingContext P V)
    (rf_r rf_prev : List P) (props : List V)
    (hrf : ctx.received_from[ctx.round]? = some rf_r)
    (hr0 : ctx.round ≠ 0)
    (hprev : ctx.received_from[ctx.round - 1]? = some rf_prev)
    (hlen : rf_r.length = rf_prev.length)
    (hsub : ∀ q ∈ rf_r, q ∈ rf_prev)
    (hprops : ctx.proposals[ctx.round]? = some props) :
    decideOrNextRoundInner select ctx =
      (match select props with
       | .error e => .error (.internal e)
       | .ok d => .ok ({ ctx with decision := some d },
                       [.Broadcast (.Decided d), .Decide d])) := by
  have hb : (rf_r.length == rf_prev.length
      && !(rf_r.any fun p => !(decide (p ∈ rf_prev)))) = true := by
    simp only [Bool.and_eq_true, beq_iff_eq, Bool.not_eq_true', List.any_eq_false,
      decide_eq_false_iff_not, not_not]
    exact ⟨hlen, hsub⟩
  unfold decideOrNextRoundInner
  simp only [hrf, if_neg hr0, hprev, hb, if_true, hprops]

/-- The body of the convergence check takes the advance branch when the
length-plus-containment comparison fails: the round is incremented and the
current round's accumulated proposals are re-flooded under the new round
number. -/
theorem decideOrNextRoundInner_advance_branch {P V E : Type} [DecidableEq P]
    (select : List V → Except E V) (ctx : FloodingContext P V)
    (rf_r rf_prev : List P) (props : List V)
    (hrf : ctx.received_from[ctx.round]? = some rf_r)
    (hr0 : ctx.round ≠ 0)
    (hprev : ctx.received_from[ctx.round - 1]? = some rf_prev)
    (hne : ¬ (rf_r.length = rf_prev.length ∧ ∀ q ∈ rf_r, q ∈ rf_prev))
    (hprops : ctx.proposals[ctx.round]? = some props) :
    decideOrNextRoundInner select ctx =
      .ok ({ ctx with round := ctx.round + 1 },
           [.Broadcast (.Proposal (ctx.round + 1) props)]) := by
  have hb : (rf_r.length == rf_prev.length
      && !(rf_r.any fun p => !(decide (p ∈ rf_prev)))) = false := by
    rw [← Bool.not_eq_true]
    simp only [Bool.and_eq_true, beq_iff_eq, Bool.not_eq_true', List.any_eq_false,
      decide_eq_false_iff_not, not_not]
    exact hne
  unfold decideOrNextRoundInner
  simp only [hrf, if_neg hr0, hprev, hb, Bool.false_eq_true, if_false, hprops]

/-! ### Claim theorems -/

/-- C1: the spec claims every non-empty returned action list begins with
`UpdateContext`, in particular for `Deliver(p, Decided(v))` with `p` correct
and no prior decision. The code violates this: `handle_deliver_decided`
pushes `Broadcast(Decided(v))` and `Decide(v)` but never inserts an
`UpdateContext`, so the context in which `set_decision` was recorded is
dropped. At the concrete input below the returned list is non-empty, its
first action is the broadcast, and it contains zero `UpdateContext`
actions. -/
theorem deliver_decided_drops_update_context :
    FloodingAlgorithm.event selHead
      (FloodingEvent.Deliver 0 (FloodingMessage.Decided 42))
      { correct := [0], round := 1, decision := none,
        received_from := [[0]], proposals := [[]] } =
      Except.ok [FloodingAction.Broadcast (FloodingMessage.Decided 42),
                 FloodingAction.Decide 42] ∧
    ([FloodingAction.Broadcast (FloodingMessage.Decided 42),
      FloodingAction.Decide (42 : Nat)] : List (FloodingAction Nat Nat)).countP
        isUpdateContext = 0 :=
  ⟨rfl, rfl⟩

/-- C4: the spec claims decision adoption is idempotent once the host has
applied the first call's actions. Because `handle_deliver_decided` returns
no `UpdateContext` (see C1), the host keeps its stored context with
`decision = None`, so redelivering the same `Decided(v)` message is the
identical call on the identical context and again returns the non-empty
`Broadcast(Decided(v))`/`Decide(v)` list — a duplicate broadcast and a
duplicate decide, not a no-op. -/
theorem deliver_decided_twice_duplicates_actions :
    FloodingAlgorithm.event selHead
      (FloodingEvent.Deliver 0 (FloodingMessage.Decided 7))
      { correct := [0, 1], round := 1, decision := none,
        received_from := [[0, 1], []], proposals := [[], []] } =
      Except.ok [FloodingAction.Broadcast (FloodingMessage.Decided 7),
                 FloodingAction.Decide 7] ∧
    ([FloodingAction.Broadcast (FloodingMessage.Decided 7),
      FloodingAction.Decide (7 : Nat)] : List (FloodingAction Nat Nat)).countP
        isUpdateContext = 0 ∧
    ([FloodingAction.Broadcast (FloodingMessage.Decided 7),
      FloodingAction.Decide (7 : Nat)] : List (FloodingAction Nat Nat)).countP
        isDecideAction = 1 :=
  ⟨rfl, rfl, rfl⟩

/-- C2 counterexample: the claim asserts that a delivered proposal for any
round, in particular a round at or beyond the original membership size, is
accepted and buffered without error. On a two-process membership the
per-round tables have exactly two entries, and a proposal for round 5
makes `received_from[5]` an out-of-bounds index: the call panics instead
of buffering. -/
theorem deliver_out_of_range_round_panics :
    FloodingAlgorithm.event selHead
      (FloodingEvent.Deliver 0 (FloodingMessage.Proposal 5 [7]))
      (FloodingContext.new [0, 1]) =
      Except.error TransitionError.panicked := rfl

/-- C2 amended: a delivered `Proposal(r, values)` is accepted and buffered
without error — `p` appended to `received_from[r]`, `values` merged into
`proposals[r]` — provided `r` is within the bounds of the per-round tables
and is not the current round (a current-round delivery additionally runs
the convergence check, and an out-of-bounds round panics). -/
theorem deliver_off_round_is_buffered {P V E : Type} [DecidableEq P]
    (select : List V → Except E V) (ctx : FloodingContext P V)
    (p : P) (r : Round) (vs : List V) (rf : List P) (ps : List V)
    (hrf : ctx.received_from[r]? = some rf)
    (hps : ctx.proposals[r]? = some ps)
    (hne : r ≠ ctx.round) :
    FloodingAlgorithm.event select (.Deliver p (.Proposal r vs)) ctx =
      Except.ok [FloodingAction.UpdateContext
        { ctx with received_from := ctx.received_from.set r (rf ++ [p]),
                   proposals := ctx.proposals.set r (ps ++ vs) }] := by
  simp [FloodingAlgorithm.event, handle_deliver_proposal, hrf, hps, hne]

/-- C2 amended, witness: buffering a round-0 proposal on a fresh
two-process context. -/
theorem deliver_off_round_is_buffered_witness :
    (FloodingContext.new (V := Nat) [0, 1]).received_from[0]? = some [0, 1] ∧
    (FloodingContext.new (V := Nat) [0, 1]).proposals[0]? = some [] ∧
    (0 : Round) ≠ (FloodingContext.new (V := Nat) [0, 1]).round ∧
    FloodingAlgorithm.event selHead
      (FloodingEvent.Deliver 1 (FloodingMessage.Proposal 0 [5]))
      (FloodingContext.new [0, 1]) =
      Except.ok [FloodingAction.UpdateContext
        { correct := [0, 1], round := 1, decision := none,
          received_from := [[0, 1, 1], []], proposals := [[5], []] }] :=
  ⟨rfl, rfl, by decide,
   deliver_off_round_is_buffered selHead (FloodingContext.new [0, 1])
     1 0 [5] [0, 1] [] rfl rfl (by decide)⟩

/-- C7: `Propose(v)` appends `v` to `proposals[1]` and changes nothing
else — the returned context is the input context with only `proposals[1]`
extended — together with exactly the two actions `UpdateContext` and
`Broadcast(Proposal(1, proposals[1]))` carrying the updated round-1 list,
and no `Decide` (the convergence check is not run). The hypothesis
requires `proposals[1]` to exist, i.e. a membership of at least two
processes (see C9 for the out-of-bounds failure otherwise). -/
theorem propose_appends_and_broadcasts {P V E : Type} [DecidableEq P]
    (select : List V → Except E V) (ctx : FloodingContext P V)
    (v : V) (ps : List V)
    (hps : ctx.proposals[1]? = some ps) :
    FloodingAlgorithm.event select (.Propose v) ctx =
      Except.ok [FloodingAction.UpdateContext
                   { ctx with proposals := ctx.proposals.set 1 (ps ++ [v]) },
                 FloodingAction.Broadcast (FloodingMessage.Proposal 1 (ps ++ [v]))] := by
  simp [FloodingAlgorithm.event, handle_propose, hps]

/-- C7 witness: proposing 7 on a fresh two-process context. -/
theorem propose_appends_and_broadcasts_witness :
    (FloodingContext.new (V := Nat) [0, 1]).proposals[1]? = some [] ∧
    FloodingAlgorithm.event selHead (FloodingEvent.Propose 7)
      (FloodingContext.new [0, 1]) =
      Except.ok [FloodingAction.UpdateContext
                   { correct := [0, 1], round := 1, decision := none,
                     received_from := [[0, 1], []], proposals := [[], [7]] },
                 FloodingAction.Broadcast (FloodingMessage.Proposal 1 [7])] :=
  ⟨rfl, propose_appends_and_broadcasts selHead (FloodingContext.new [0, 1]) 7 [] rfl⟩

/-- C9: `FloodingContext::new(processes)` sizes both `received_from` and
`proposals` to exactly `processes.len()` entries; consequently `Propose`
on a membership of fewer than two processes (which indexes `proposals[1]`)
panics instead of returning a result, and a current-round delivery in any
context whose round has reached the table size (as happens once the round
has advanced to `processes.len()`) panics on `received_from[round]`. -/
theorem tables_sized_by_membership_oob_fails {P V E : Type} [DecidableEq P]
    (select : List V → Except E V) :
    (∀ processes : List P,
      (FloodingContext.new (V := V) processes).received_from.length = processes.length ∧
      (FloodingContext.new (V := V) processes).proposals.length = processes.length) ∧
    (∀ (processes : List P) (v : V), processes.length < 2 →
      FloodingAlgorithm.event select (.Propose v) (FloodingContext.new processes) =
        Except.error TransitionError.panicked) ∧
    (∀ (ctx : FloodingContext P V) (p : P) (vs : List V),
      ctx.received_from.length ≤ ctx.round →
      FloodingAlgorithm.event select (.Deliver p (.Proposal ctx.round vs)) ctx =
        Except.error TransitionError.panicked) := by
  refine ⟨?_, ?_, ?_⟩
  · intro processes
    constructor <;> simp [FloodingContext.new]
  · intro processes v h
    have hnone : (FloodingContext.new (V := V) processes).proposals[1]? = none := by
      apply List.getElem?_eq_none
      simp [FloodingContext.new]
      omega
    simp [FloodingAlgorithm.event, handle_propose, hnone]
  · intro ctx p vs h
    have hnone : ctx.received_from[ctx.round]? = none := List.getElem?_eq_none h
    simp [FloodingAlgorithm.event, handle_deliver_proposal, hnone]

/-- C9 witness: a single-process membership has tables of length one, and
proposing on it panics on the `proposals[1]` index. -/
theorem tables_sized_by_membership_oob_fails_witness :
    ([0] : List Nat).length < 2 ∧
    FloodingAlgorithm.event selHead (FloodingEvent.Propose 7)
      (FloodingContext.new [0]) = Except.error TransitionError.panicked :=
  ⟨by decide, (tables_sized_by_membership_oob_fails selHead).2.1 [0] 7 (by decide)⟩

/-- C10: `received_from[r]` is not deduplicated — a delivery from a
process `p` already recorded in `received_from[r]` appends `p` again, so
the stored list in the returned `UpdateContext` is the old list plus one
more entry, one element longer than before. -/
theorem received_from_not_deduplicated {P V E : Type} [DecidableEq P]
    (select : List V → Except E V) (ctx : FloodingContext P V)
    (p : P) (r : Round) (vs : List V) (rf : List P)
    (acts : List (FloodingAction P V))
    (hrf : ctx.received_from[r]? = some rf)
    (hp : p ∈ rf)
    (hok : FloodingAlgorithm.event select (.Deliver p (.Proposal r vs)) ctx =
      Except.ok acts) :
    ∃ ctx₁ rest, acts = FloodingAction.UpdateContext ctx₁ :: rest ∧
      ctx₁.received_from[r]? = some (rf ++ [p]) ∧
      (rf ++ [p]).length = rf.length + 1 := by
  have hr : r < ctx.received_from.length := by
    by_contra hcon
    rw [List.getElem?_eq_none (Nat.le_of_not_lt hcon)] at hrf
    exact absurd hrf (by simp)
  simp only [FloodingAlgorithm.event, handle_deliver_proposal, hrf] at hok
  split at hok
  · exact absurd hok (by simp)
  · split at hok
    · split at hok
      · exact absurd hok (by simp)
      · rename_i ctx₃ acts' hd
        simp only [Except.ok.injEq] at hok
        subst hok
        refine ⟨ctx₃, acts', rfl, ?_, by simp⟩
        have hfr := (decideOrNextRound_frame select _ ctx₃ acts' hd).2.1
        rw [hfr]
        simp only []
        rw [List.getElem?_set_self hr]
    · simp only [Except.ok.injEq] at hok
      subst hok
      refine ⟨_, [], rfl, ?_, by simp⟩
      simp only []
      rw [List.getElem?_set_self hr]

/-- C10 witness: redelivering from process 0, already recorded in
`received_from[0]`, appends a duplicate entry. -/
theorem received_from_not_deduplicated_witness :
    (FloodingContext.new (V := Nat) [0, 1]).received_from[0]? = some [0, 1] ∧
    (0 : Nat) ∈ [0, 1] ∧
    (∃ ctx₁ rest,
      [FloodingAction.UpdateContext
        { correct := [0, 1], round := 1, decision := none,
          received_from := ([[0, 1, 0], []] : List (List Nat)),
          proposals := ([[9], []] : List (List Nat)) }] =
        FloodingAction.UpdateContext ctx₁ :: rest ∧
      ctx₁.received_from[0]? = some ([0, 1] ++ [0]) ∧
      ([0, 1] ++ [0]).length = ([0, 1] : List Nat).length + 1) :=
  ⟨rfl, by decide,
   received_from_not_deduplicated selHead (FloodingContext.new [0, 1])
     0 0 [9] [0, 1] _ rfl (by decide) rfl⟩

/-- C5: once `decision = Some(v)`, every context carried by an
`UpdateContext` action returned for any later event (crash, propose, or any
delivery) still has `decision = Some(v)`: the decision is never cleared or
overwritten. -/
theorem decision_never_overwritten {P V E : Type} [DecidableEq P]
    (select : List V → Except E V) (ev : FloodingEvent P V)
    (ctx : FloodingContext P V) (v : V)
    (hv : ctx.decision = some v)
    (acts : List (FloodingAction P V))
    (hok : FloodingAlgorithm.event select ev ctx = Except.ok acts) :
    ∀ c, FloodingAction.UpdateContext c ∈ acts → c.decision = some v := by
  intro c hc
  cases ev with
  | Crash p =>
    simp only [FloodingAlgorithm.event, handle_crash] at hok
    split at hok
    · simp only [Except.ok.injEq] at hok
      subst hok
      exact absurd hc (by simp)
    · split at hok
      · exact absurd hok (by simp)
      · rename_i ctx₂ acts' hd
        simp only [Except.ok.injEq] at hok
        subst hok
        rcases List.mem_cons.mp hc with heq | hmem
        · injection heq with heq'
          subst heq'
          obtain ⟨h1, -⟩ := decideOrNextRound_of_some select _ c acts' v hd hv
          rw [h1]
          exact hv
        · exact absurd hmem ((decideOrNextRound_frame select _ ctx₂ acts' hd).2.2.2 c)
  | Propose w =>
    simp only [FloodingAlgorithm.event, handle_propose] at hok
    split at hok
    · exact absurd hok (by simp)
    · simp only [Except.ok.injEq] at hok
      subst hok
      rcases List.mem_cons.mp hc with heq | hmem
      · injection heq with heq'
        subst heq'
        exact hv
      · exact absurd hmem (by simp)
  | Deliver p m =>
    cases m with
    | Proposal r vs =>
      simp only [FloodingAlgorithm.event, handle_deliver_proposal] at hok
      split at hok
      · exact absurd hok (by simp)
      · split at hok
        · exact absurd hok (by simp)
        · split at hok
          · split at hok
            · exact absurd hok (by simp)
            · rename_i ctx₃ acts' hd
              simp only [Except.ok.injEq] at hok
              subst hok
              rcases List.mem_cons.mp hc with heq | hmem
              · injection heq with heq'
                subst heq'
                obtain ⟨h1, -⟩ := decideOrNextRound_of_some select _ c acts' v hd hv
                rw [h1]
                exact hv
              · exact absurd hmem
                  ((decideOrNextRound_frame select _ ctx₃ acts' hd).2.2.2 c)
          · simp only [Except.ok.injEq] at hok
            subst hok
            rcases List.mem_cons.mp hc with heq | hmem
            · injection heq with heq'
              subst heq'
              exact hv
            · exact absurd hmem (by simp)
    | Decided w =>
      simp only [FloodingAlgorithm.event, handle_deliver_decided] at hok
      split at hok
      · simp only [Except.ok.injEq] at hok
        subst hok
        exact absurd hc (by simp)
      · simp only [Except.ok.injEq] at hok
        subst hok
        exact absurd hc (by simp)

/-- C5 witness: a crash processed after the decision was set to 3 returns
an `UpdateContext` that still carries `decision = some 3`. -/
theorem decision_never_overwritten_witness :
    ({ correct := [0, 1], round := 1, decision := some 3,
       received_from := [[0, 1], []], proposals := [[], []] } :
        FloodingContext Nat Nat).decision = some 3 ∧
    FloodingAlgorithm.event selHead (FloodingEvent.Crash 1)
      { correct := [0, 1], round := 1, decision := some 3,
        received_from := [[0, 1], []], proposals := [[], []] } =
      Except.ok [FloodingAction.UpdateContext
        { correct := [0], round := 1, decision := some 3,
          received_from := [[0, 1], []], proposals := [[], []] }] ∧
    (∀ c, FloodingAction.UpdateContext c ∈
        [FloodingAction.UpdateContext
          ({ correct := [0], round := 1, decision := some 3,
             received_from := [[0, 1], []], proposals := [[], []] } :
              FloodingContext Nat Nat)] →
      c.decision = some 3) :=
  ⟨rfl, rfl,
   decision_never_overwritten selHead (FloodingEvent.Crash 1)
     { correct := [0, 1], round := 1, decision := some 3,
       received_from := [[0, 1], []], proposals := [[], []] } 3 rfl
     [FloodingAction.UpdateContext
       { correct := [0], round := 1, decision := some 3,
         received_from := [[0, 1], []], proposals := [[], []] }] rfl⟩

/-- C6: `Crash(p)` with `p` in `correct` (a duplicate-free membership, as
`FloodingContext::new` builds and `swap_remove` maintains) returns an
`UpdateContext` whose `correct` is, as a set, exactly the prior `correct`
minus `{p}`; `Crash(p)` with `p` absent returns the empty action list — a
no-op with no broadcast and no decide, and no replacement context. -/
theorem crash_removes_exactly_crashed_process {P V E : Type} [DecidableEq P]
    (select : List V → Except E V) (ctx : FloodingContext P V) (p : P) :
    (∀ acts, p ∈ ctx.correct → ctx.correct.Nodup →
      FloodingAlgorithm.event select (.Crash p) ctx = Except.ok acts →
      ∃ ctx₁ rest, acts = FloodingAction.UpdateContext ctx₁ :: rest ∧
        (∀ q, q ∈ ctx₁.correct ↔ (q ∈ ctx.correct ∧ q ≠ p))) ∧
    (p ∉ ctx.correct →
      FloodingAlgorithm.event select (.Crash p) ctx = Except.ok []) := by
  constructor
  · intro acts hin hnd hok
    simp only [FloodingAlgorithm.event, handle_crash] at hok
    split at hok
    · rename_i hfind
      rw [List.findIdx?_eq_none_iff] at hfind
      have := hfind p hin
      simp at this
    · rename_i i hfind
      split at hok
      · exact absurd hok (by simp)
      · rename_i ctx₂ acts' hd
        simp only [Except.ok.injEq] at hok
        subst hok
        obtain ⟨hlt, hpi, -⟩ := List.findIdx?_eq_some_iff_getElem.mp hfind
        have hpi' : ctx.correct[i] = p := of_decide_eq_true hpi
        refine ⟨ctx₂, acts', rfl, ?_⟩
        intro q
        rw [(decideOrNextRound_frame select _ ctx₂ acts' hd).1]
        rw [show ({ ctx with correct := swapRemove ctx.correct i } :
              FloodingContext P V).correct = swapRemove ctx.correct i from rfl]
        rw [swapRemove_mem_iff hlt hnd q, hpi']
  · intro hout
    have hnone : ctx.correct.findIdx? (fun q => decide (q = p)) = none := by
      rw [List.findIdx?_eq_none_iff]
      intro x hx
      simp only [decide_eq_false_iff_not]
      intro h
      exact hout (h ▸ hx)
    simp [FloodingAlgorithm.event, handle_crash, hnone]

/-- C6 witness: crashing process 1 out of the membership `[0, 1]` leaves
`correct = [0]`, and crashing the already-absent process 5 is a no-op. -/
theorem crash_removes_exactly_crashed_process_witness :
    (1 : Nat) ∈ [0, 1] ∧ ([0, 1] : List Nat).Nodup ∧
    (∃ ctx₁ rest,
      [FloodingAction.UpdateContext
        ({ correct := [0], round := 1, decision := none,
           received_from := [[0, 1], []], proposals := [[], []] } :
            FloodingContext Nat Nat)] =
        FloodingAction.UpdateContext ctx₁ :: rest ∧
      (∀ q, q ∈ ctx₁.correct ↔
        (q ∈ ({ correct := [0, 1], round := 1, decision := none,
                received_from := [[0, 1], []], proposals := [[], []] } :
                  FloodingContext Nat Nat).correct ∧ q ≠ 1))) ∧
    FloodingAlgorithm.event selHead (FloodingEvent.Crash 5)
      { correct := [0, 1], round := 1, decision := none,
        received_from := [[0, 1], []], proposals := [[], []] } =
      Except.ok [] :=
  ⟨by decide, by decide,
   (crash_removes_exactly_crashed_process selHead
     { correct := [0, 1], round := 1, decision := none,
       received_from := [[0, 1], []], proposals := [[], []] } 1).1
     _ (by decide) (by decide) rfl,
   (crash_removes_exactly_crashed_process selHead
     { correct := [0, 1], round := 1, decision := none,
       received_from := [[0, 1], []], proposals := [[], []] } 5).2
     (by decide)⟩

/-- C3 counterexample: the claim says the decide/advance choice depends
only on the membership sets of `received_from[round]` and
`received_from[round - 1]`, deciding whenever they are equal as sets
regardless of duplicates. Here, when the convergence check runs (after the
delivery is recorded), `received_from[1] = [0, 0]` and
`received_from[0] = [0]` contain exactly the same set of processes, the
guard holds (`correct = [0]` is a subset, no decision), yet the code
compares lengths (2 versus 1) and advances the round, emitting no
`Decide`. -/
theorem convergence_equal_sets_but_advances :
    (∀ q : Nat, q ∈ ([0, 0] : List Nat) ↔ q ∈ ([0] : List Nat)) ∧
    FloodingAlgorithm.event selHead
      (FloodingEvent.Deliver 0 (FloodingMessage.Proposal 1 []))
      { correct := [0], round := 1, decision := none,
        received_from := [[0], [0]], proposals := [[], []] } =
      Except.ok [FloodingAction.UpdateContext
                   { correct := [0], round := 2, decision := none,
                     received_from := [[0], [0, 0]], proposals := [[], []] },
                 FloodingAction.Broadcast (FloodingMessage.Proposal 2 [])] ∧
    ([FloodingAction.UpdateContext
        ({ correct := [0], round := 2, decision := none,
           received_from := [[0], [0, 0]], proposals := [[], []] } :
             FloodingContext Nat Nat),
      FloodingAction.Broadcast (FloodingMessage.Proposal 2 [])]).countP
        isDecideAction = 0 :=
  ⟨by simp, rfl, rfl⟩

/-- C3 amended: when the convergence check runs (the guard
`correct ⊆ received_from[round]`, `decision = None` holds and the indexed
entries exist), the choice is made by comparing the two collections by
*length* plus one-directional membership: the algorithm decides (applies
the selection function) exactly when `received_from[round]` and
`received_from[round - 1]` have equal lengths and every entry of
`received_from[round]` occurs in `received_from[round - 1]`; otherwise it
advances the round. With duplicate-free collections this coincides with
set equality, but with duplicates it does not (see the counterexample). -/
theorem convergence_compares_length_and_containment {P V E : Type} [DecidableEq P]
    (select : List V → Except E V) (ctx : FloodingContext P V)
    (rf_r rf_prev : List P) (props : List V)
    (hrf : ctx.received_from[ctx.round]? = some rf_r)
    (hr0 : ctx.round ≠ 0)
    (hprev : ctx.received_from[ctx.round - 1]? = some rf_prev)
    (hguard : ∀ q ∈ ctx.correct, q ∈ rf_r)
    (hdec : ctx.decision = none)
    (hprops : ctx.proposals[ctx.round]? = some props) :
    ((rf_r.length = rf_prev.length ∧ ∀ q ∈ rf_r, q ∈ rf_prev) →
      decideOrNextRound select ctx =
        (match select props with
         | .error e => .error (.internal e)
         | .ok d => .ok ({ ctx with decision := some d },
                         [.Broadcast (.Decided d), .Decide d]))) ∧
    (¬ (rf_r.length = rf_prev.length ∧ ∀ q ∈ rf_r, q ∈ rf_prev) →
      decideOrNextRound select ctx =
        .ok ({ ctx with round := ctx.round + 1 },
             [.Broadcast (.Proposal (ctx.round + 1) props)])) := by
  constructor
  · intro hcond
    rw [decideOrNextRound_eq_inner select ctx rf_r hrf hguard hdec]
    exact decideOrNextRoundInner_decide_branch select ctx rf_r rf_prev props
      hrf hr0 hprev hcond.1 hcond.2 hprops
  · intro hcond
    rw [decideOrNextRound_eq_inner select ctx rf_r hrf hguard hdec]
    exact decideOrNextRoundInner_advance_branch select ctx rf_r rf_prev props
      hrf hr0 hprev hcond hprops

/-- C3 amended, witness: with `received_from[1] = [0]` equal in length to
and contained in `received_from[0] = [0]`, the check decides, selecting
from `proposals[1] = [9]`. -/
theorem convergence_compares_length_and_containment_witness :
    ({ correct := [0], round := 1, decision := none,
       received_from := [[0], [0]], proposals := [[8], [9]] } :
         FloodingContext Nat Nat).received_from[(1 : Nat)]? = some [0] ∧
    (([0] : List Nat).length = ([0] : List Nat).length ∧
      ∀ q ∈ ([0] : List Nat), q ∈ ([0] : List Nat)) ∧
    decideOrNextRound selHead
      { correct := [0], round := 1, decision := none,
        received_from := [[0], [0]], proposals := [[8], [9]] } =
      Except.ok ({ correct := [0], round := 1, decision := some 9,
                   received_from := [[0], [0]], proposals := [[8], [9]] },
                 [FloodingAction.Broadcast (FloodingMessage.Decided 9),
                  FloodingAction.Decide 9]) :=
  ⟨rfl, ⟨rfl, by decide⟩,
   (convergence_compares_length_and_containment selHead
     { correct := [0], round := 1, decision := none,
       received_from := [[0], [0]], proposals := [[8], [9]] }
     [0] [0] [9] rfl (by decide) rfl (by decide) rfl rfl).1 ⟨rfl, by decide⟩⟩

/-- C8: when the convergence check reaches the decide branch and the
selection function fails on `proposals[round]`, the whole transition fails
with that same internal error, and — `Except` returning an error instead
of an action list — no actions at all are emitted, in particular no
`UpdateContext`, so the host's stored context is untouched. The second and
third conjuncts propagate the failure through `handle_crash` and a
current-round `handle_deliver_proposal`, the two handlers that run the
check. -/
theorem select_error_propagates {P V E : Type} [DecidableEq P]
    (select : List V → Except E V) (ctx : FloodingContext P V) (e : E) :
    (∀ rf_r rf_prev props,
      ctx.received_from[ctx.round]? = some rf_r →
      ctx.round ≠ 0 →
      ctx.received_from[ctx.round - 1]? = some rf_prev →
      (∀ q ∈ ctx.correct, q ∈ rf_r) →
      ctx.decision = none →
      rf_r.length = rf_prev.length →
      (∀ q ∈ rf_r, q ∈ rf_prev) →
      ctx.proposals[ctx.round]? = some props →
      select props = .error e →
      decideOrNextRound select ctx = .error (.internal e)) ∧
    (∀ p i err, ctx.correct.findIdx? (fun q => decide (q = p)) = some i →
      decideOrNextRound select { ctx with correct := swapRemove ctx.correct i } =
        .error err →
      FloodingAlgorithm.event select (.Crash p) ctx = .error err) ∧
    (∀ p vs rf ps err,
      ctx.received_from[ctx.round]? = some rf →
      ctx.proposals[ctx.round]? = some ps →
      decideOrNextRound select
        { ctx with received_from := ctx.received_from.set ctx.round (rf ++ [p]),
                   proposals := ctx.proposals.set ctx.round (ps ++ vs) } =
        .error err →
      FloodingAlgorithm.event select (.Deliver p (.Proposal ctx.round vs)) ctx =
        .error err) := by
  refine ⟨?_, ?_, ?_⟩
  · intro rf_r rf_prev props hrf hr0 hprev hguard hdec hlen hsub hprops herr
    rw [decideOrNextRound_eq_inner select ctx rf_r hrf hguard hdec]
    rw [decideOrNextRoundInner_decide_branch select ctx rf_r rf_prev props
      hrf hr0 hprev hlen hsub hprops]
    rw [herr]
  · intro p i err hfind herr
    simp only [FloodingAlgorithm.event, handle_crash, hfind, herr]
  · intro p vs rf ps err hrf hps herr
    simp [FloodingAlgorithm.event, handle_deliver_proposal, hrf, hps, herr]

/-- C8 witness: on a context whose decide branch is reached with an empty
`proposals[1]`, the head-selecting function fails with error 0, and the
convergence check surfaces exactly that internal error. -/
theorem select_error_propagates_witness :
    selHead [] = Except.error 0 ∧
    decideOrNextRound selHead
      { correct := [0], round := 1, decision := none,
        received_from := [[0], [0]], proposals := [[], []] } =
      Except.error (TransitionError.internal 0) :=
  ⟨rfl,
   (select_error_propagates selHead
     { correct := [0], round := 1, decision := none,
       received_from := [[0], [0]], proposals := [[], []] } 0).1
     [0] [0] [] rfl (by decide) rfl (by decide) rfl rfl (by decide) rfl rfl⟩

end Augrim
